import Mathlib

/-!
Verification development for the Ecne AI report-builder pipeline.

The Python sources are embedded shallowly: strings become `List Char`,
Python functions become Lean functions of the same name, network and
filesystem effects become explicit environment oracles passed as arguments,
and `for`-loops become folds or structural recursions.  Styling, logging
and file persistence are elided; everything that decides control flow is
kept.
-/

namespace Ecne

/-- Python `str.lower()`, modelled over `List Char`. -/
def lowerStr (s : List Char) : List Char := s.map Char.toLower

/-- Python `haystack.find(pat)`: index of the first occurrence of `pat`, if any. -/
def findSub (pat : List Char) : List Char → Option Nat
  | [] => if pat.isEmpty then some 0 else none
  | c :: rest => if pat.isPrefixOf (c :: rest) then some 0 else (findSub pat rest).map (· + 1)

/-- Python `haystack.rfind(pat)`: index of the last occurrence of `pat`, if any. -/
def rfindSub (pat : List Char) : List Char → Option Nat
  | [] => if pat.isEmpty then some 0 else none
  | c :: rest =>
    match rfindSub pat rest with
    | some i => some (i + 1)
    | none => if pat.isPrefixOf (c :: rest) then some 0 else none

/-- Python `haystack.find(pat, start)`. -/
def findSubFrom (pat s : List Char) (start : Nat) : Option Nat :=
  (findSub pat (s.drop start)).map (· + start)

/-- Python `pat in s` (substring membership). -/
def containsSub (pat s : List Char) : Bool := (findSub pat s).isSome

/-- Python `str.strip()`; the pipeline's strings only use ASCII whitespace. -/
def stripStr (s : List Char) : List Char :=
  ((s.dropWhile Char.isWhitespace).reverse.dropWhile Char.isWhitespace).reverse

def thinkOpenL : List Char := "<think>".toList

def thinkCloseL : List Char := "</think>".toList

/-- One pass of `re.sub(r'<think>.*?</think>', '', text, flags=IGNORECASE|DOTALL)`:
delete every non-overlapping lazy match, scanning left to right.  A lazy match
starts at the first (case-insensitive) `<think>` and ends at the first
`</think>` after it; the scan resumes right after the deleted span.  The
recursion is fuelled so that it stays structural: every deleted match is at
least 15 characters long, so starting the fuel at the text's length never
cuts the scan short (fuel can only hit 0 on an empty remainder, where the
scan stops anyway). -/
def reSubThinkF : Nat → List Char → List Char
  | 0, s => s
  | fuel + 1, s =>
    match findSub thinkOpenL (lowerStr s) with
    | none => s
    | some i =>
      match findSubFrom thinkCloseL (lowerStr s) (i + thinkOpenL.length) with
      | none => s
      | some j => s.take i ++ reSubThinkF fuel (s.drop (j + thinkCloseL.length))

def reSubThink (s : List Char) : List Char := reSubThinkF s.length s

/-- The fixed-point loop of `clean_thinking_tags`: re-apply the substitution
while the text keeps changing (each pass only deletes characters, so a change
is exactly a length decrease, and `s.length` iterations always reach the
fixed point). -/
def cleanLoopF : Nat → List Char → List Char
  | 0, s => s
  | fuel + 1, s =>
    let t := reSubThink s
    if t.length < s.length then cleanLoopF fuel t else s

def cleanLoop (s : List Char) : List Char := cleanLoopF s.length s

/-- `clean_thinking_tags` (src/functions/utils.py): repeatedly strip
`<think>...</think>` spans until a fixed point, then `.strip()`.  A `None`
argument becomes `""`, which this model renders as `[]`. -/
def clean_thinking_tags (text : List Char) : List Char := stripStr (cleanLoop text)

/-- `parse_ai_tool_response` (src/functions/utils.py): clean the response, then
return the substring between the last case-insensitive `<tag>` and the first
`</tag>` after it, stripped; if either tag is missing, fall back to the whole
cleaned text. -/
def parse_ai_tool_response (response_text tool_tag : List Char) : List Char :=
  let cleaned := clean_thinking_tags response_text
  if cleaned.isEmpty then [] else
  let openTag : List Char := '<' :: tool_tag ++ ['>']
  let closeTag : List Char := '<' :: '/' :: tool_tag ++ ['>']
  let cl := lowerStr cleaned
  match rfindSub (lowerStr openTag) cl with
  | none => cleaned
  | some lastOpen =>
    let searchStart := lastOpen + openTag.length
    match findSubFrom (lowerStr closeTag) cl searchStart with
    | none => cleaned
    | some closeIdx => stripStr ((cleaned.drop searchStart).take (closeIdx - searchStart))

/-! ### Characterisation of the substring searches -/

theorem findSub_nil_pat (s : List Char) : findSub [] s = some 0 := by
  cases s <;> simp [findSub, List.isPrefixOf]

theorem findSub_none_iff {pat : List Char} (hp : pat ≠ []) (s : List Char) :
    findSub pat s = none ↔ ∀ i, ¬ pat <+: s.drop i := by
  induction s with
  | nil =>
    simp only [findSub, List.isEmpty_iff, if_neg hp, List.drop_nil, true_iff]
    intro i h
    exact hp (List.prefix_nil.mp h)
  | cons c rest ih =>
    by_cases hpre : pat.isPrefixOf (c :: rest)
    · simp only [findSub, if_pos hpre]
      constructor
      · intro h; exact absurd h (by simp)
      · intro h
        exact absurd (List.isPrefixOf_iff_prefix.mp hpre) (by simpa using h 0)
    · simp only [findSub, if_neg hpre, Option.map_eq_none', ih]
      constructor
      · intro h i
        cases i with
        | zero =>
          simpa using fun hc => hpre (List.isPrefixOf_iff_prefix.mpr hc)
        | succ j => simpa using h j
      · intro h j
        simpa using h (j + 1)

theorem findSub_some_spec {pat s : List Char} {i : Nat} (h : findSub pat s = some i) :
    pat <+: s.drop i ∧ ∀ j, j < i → ¬ pat <+: s.drop j := by
  induction s generalizing i with
  | nil =>
    by_cases hp : pat = []
    · subst hp
      rw [findSub_nil_pat, Option.some_inj] at h
      subst h
      simp
    · simp [findSub, List.isEmpty_iff, hp] at h
  | cons c rest ih =>
    by_cases hpre : pat.isPrefixOf (c :: rest)
    · simp only [findSub, if_pos hpre, Option.some_inj] at h
      subst h
      exact ⟨by simpa using List.isPrefixOf_iff_prefix.mp hpre, by omega⟩
    · simp only [findSub, if_neg hpre, Option.map_eq_some'] at h
      obtain ⟨i', hi', rfl⟩ := h
      obtain ⟨h1, h2⟩ := ih hi'
      refine ⟨by simpa using h1, ?_⟩
      intro j hj
      cases j with
      | zero =>
        simpa using fun hc => hpre (List.isPrefixOf_iff_prefix.mpr hc)
      | succ j' =>
        simpa using h2 j' (by omega)

theorem findSub_intro {pat s : List Char} {i : Nat} (h1 : pat <+: s.drop i)
    (h2 : ∀ j, j < i → ¬ pat <+: s.drop j) : findSub pat s = some i := by
  induction s generalizing i with
  | nil =>
    have hp : pat = [] := List.prefix_nil.mp (by simpa using h1)
    subst hp
    have hi : i = 0 := by
      by_contra hne
      exact h2 0 (by omega) (by simp)
    subst hi
    simp [findSub]
  | cons c rest ih =>
    cases i with
    | zero =>
      have : pat.isPrefixOf (c :: rest) := List.isPrefixOf_iff_prefix.mpr (by simpa using h1)
      simp [findSub, this]
    | succ i' =>
      have hpre : ¬ pat.isPrefixOf (c :: rest) := by
        intro hc
        exact h2 0 (by omega) (by simpa using List.isPrefixOf_iff_prefix.mp hc)
      have hrec : findSub pat rest = some i' := by
        refine ih (by simpa using h1) ?_
        intro j hj
        simpa using h2 (j + 1) (by omega)
      simp [findSub, hpre, hrec]

theorem rfindSub_none_iff {pat : List Char} (hp : pat ≠ []) (s : List Char) :
    rfindSub pat s = none ↔ ∀ i, ¬ pat <+: s.drop i := by
  induction s with
  | nil =>
    simp only [rfindSub, List.isEmpty_iff, if_neg hp, List.drop_nil, true_iff]
    intro i h
    exact hp (List.prefix_nil.mp h)
  | cons c rest ih =>
    constructor
    · intro h i
      simp only [rfindSub] at h
      rcases heq : rfindSub pat rest with _ | j
      · rw [heq] at h
        cases i with
        | zero =>
          intro hc
          rw [if_pos (List.isPrefixOf_iff_prefix.mpr (by simpa using hc))] at h
          exact absurd h (by simp)
        | succ j' => simpa using (ih.mp heq) j'
      · rw [heq] at h; exact absurd h (by simp)
    · intro h
      have hrest : rfindSub pat rest = none := by
        rw [ih]; intro i; simpa using h (i + 1)
      have hpre : ¬ pat.isPrefixOf (c :: rest) := by
        intro hc
        exact h 0 (by simpa using List.isPrefixOf_iff_prefix.mp hc)
      simp [rfindSub, hrest, hpre]

theorem rfindSub_intro_zero {pat s : List Char} (hp : pat ≠ []) (h0 : pat <+: s)
    (hno : ∀ i, 0 < i → ¬ pat <+: s.drop i) : rfindSub pat s = some 0 := by
  cases s with
  | nil => exact absurd (List.prefix_nil.mp h0) hp
  | cons c rest =>
    have hrest : rfindSub pat rest = none := by
      rw [rfindSub_none_iff hp]
      intro i
      simpa using hno (i + 1) (by omega)
    have hpre : pat.isPrefixOf (c :: rest) := List.isPrefixOf_iff_prefix.mpr h0
    simp [rfindSub, hrest, hpre]

/-- `pat` occurs as a contiguous substring of `s`. -/
def Occurs (pat s : List Char) : Prop := ∃ i, pat <+: s.drop i

theorem occurs_iff_containsSub (pat s : List Char) :
    Occurs pat s ↔ containsSub pat s = true := by
  by_cases hp : pat = []
  · subst hp
    simp [Occurs, containsSub, findSub_nil_pat]
  · rw [containsSub]
    rcases heq : findSub pat s with _ | i
    · simp only [Option.isSome_none, Bool.false_eq_true, iff_false]
      rintro ⟨i, hi⟩
      exact (findSub_none_iff hp s).mp heq i hi
    · simp only [Option.isSome_some, iff_true]
      exact ⟨i, (findSub_some_spec heq).1⟩

theorem prefix_append_cases {p a b : List Char} (h : p <+: a ++ b) :
    (p.length ≤ a.length ∧ p <+: a) ∨ (a <+: p ∧ p.drop a.length <+: b) := by
  rcases le_or_lt p.length a.length with hle | hlt
  · left
    refine ⟨hle, ?_⟩
    have hp := List.prefix_iff_eq_take.mp h
    rw [List.take_append_eq_append_take, Nat.sub_eq_zero_of_le hle, List.take_zero,
      List.append_nil] at hp
    exact hp ▸ List.take_prefix _ _
  · right
    obtain ⟨t, ht⟩ := h
    constructor
    · have : (p ++ t).take a.length = a := by rw [ht, List.take_left]
      rw [List.take_append_eq_append_take, Nat.sub_eq_zero_of_le (by omega),
        List.take_zero, List.append_nil] at this
      exact this ▸ List.take_prefix _ _
    · have : (p ++ t).drop a.length = b := by rw [ht, List.drop_left]
      rw [List.drop_append_of_le_length (by omega)] at this
      exact ⟨t, this⟩

theorem occurs_append_cases {pat a b : List Char} (h : Occurs pat (a ++ b)) :
    Occurs pat a ∨ Occurs pat b ∨
      ∃ k, 0 < k ∧ k < pat.length ∧ pat.take k <:+ a ∧ pat.drop k <+: b := by
  obtain ⟨i, hi⟩ := h
  rcases le_or_lt a.length i with hle | hlt
  · right; left
    refine ⟨i - a.length, ?_⟩
    have : (a ++ b).drop i = b.drop (i - a.length) := by
      conv_lhs => rw [show i = a.length + (i - a.length) by omega]
      rw [← List.drop_drop, List.drop_left]
    rwa [this] at hi
  · rw [List.drop_append_of_le_length (by omega)] at hi
    rcases prefix_append_cases hi with ⟨_, hpa⟩ | ⟨hap, hdrop⟩
    · exact Or.inl ⟨i, hpa⟩
    · set k := (a.drop i).length with hk
      have hklen : k = a.length - i := by simp [hk]
      rcases le_or_lt pat.length k with hge | hklt
      · left
        have : a.drop i = pat := List.IsPrefix.eq_of_length_le hap (by omega)
        exact ⟨i, this ▸ List.prefix_refl _⟩
      · right; right
        refine ⟨k, by omega, hklt, ?_, ?_⟩
        · have : a.drop i = pat.take k := by
            have hp := List.prefix_iff_eq_take.mp hap
            simpa [hk] using hp
          exact this ▸ List.drop_suffix _ _
        · simpa [hk] using hdrop

theorem occurs_of_prefix_drop {pat s : List Char} {i : Nat} (h : pat <+: s.drop i) :
    Occurs pat s := ⟨i, h⟩

/-! ### Fixed-point facts about the think-tag substitution -/

theorem reSubThinkF_eq_self_of_no_think {s : List Char} (fuel : Nat)
    (h : containsSub thinkOpenL (lowerStr s) = false) : reSubThinkF fuel s = s := by
  have hnone : findSub thinkOpenL (lowerStr s) = none := by
    rcases heq : findSub thinkOpenL (lowerStr s) with _ | i
    · rfl
    · rw [containsSub, heq] at h; exact absurd h (by simp)
  cases fuel with
  | zero => rfl
  | succ n => simp [reSubThinkF, hnone]

theorem reSubThink_eq_self_of_no_think {s : List Char}
    (h : containsSub thinkOpenL (lowerStr s) = false) : reSubThink s = s :=
  reSubThinkF_eq_self_of_no_think s.length h

theorem cleanLoopF_eq_self_of_fix {s : List Char} (fuel : Nat) (h : reSubThink s = s) :
    cleanLoopF fuel s = s := by
  cases fuel with
  | zero => rfl
  | succ n => simp [cleanLoopF, h]

theorem cleanLoop_eq_self_of_fix {s : List Char} (h : reSubThink s = s) :
    cleanLoop s = s :=
  cleanLoopF_eq_self_of_fix s.length h

theorem clean_eq_self {s : List Char}
    (hthink : containsSub thinkOpenL (lowerStr s) = false)
    (hstrip : stripStr s = s) : clean_thinking_tags s = s := by
  rw [clean_thinking_tags, cleanLoop_eq_self_of_fix (reSubThink_eq_self_of_no_think hthink),
    hstrip]

/-! ### Source classification (scrape_content, content.py:483-485) -/

/-- `item.startswith('r/') or 'reddit.com/r/' in item` (content.py:483). -/
def is_reddit_source (item : List Char) : Bool :=
  "r/".toList.isPrefixOf item || containsSub "reddit.com/r/".toList item

/-- `item in direct_urls_set and not is_reddit_source` (content.py:484). -/
def is_direct_url (direct_urls_set : List (List Char)) (item : List Char) : Bool :=
  direct_urls_set.contains item && !(is_reddit_source item)

/-- `not is_reddit_source and not is_direct_url` (content.py:485). -/
def is_website_source (direct_urls_set : List (List Char)) (item : List Char) : Bool :=
  !(is_reddit_source item) && !(is_direct_url direct_urls_set item)

inductive Strategy where
  | reddit
  | direct
  | website
  | unknown
deriving DecidableEq, Repr

/-- The strategy picked by scrape_content's dispatch chain
(`if is_direct_url: ... elif is_reddit_source: ... elif is_website_source: ...
else: skip as unknown`, content.py:489-804). -/
def classify (direct_urls_set : List (List Char)) (item : List Char) : Strategy :=
  if is_direct_url direct_urls_set item then .direct
  else if is_reddit_source item then .reddit
  else if is_website_source direct_urls_set item then .website
  else .unknown

/-! ### The dual-provider search gateway
(perform_direct_keyword_search, discovery.py:144-199, and the identical logic in
scrape_content's website branch, content.py:716-775) -/

/-- Outcome of one provider call: a URL list, the `'quota_error'` marker, or
`None` (unavailability / any other failure). -/
inductive ApiResult where
  | ok (urls : List (List Char))
  | quota
  | failed
deriving DecidableEq, Repr

/-- The final `isinstance(api_results, list)` test: only a URL list yields URLs. -/
def apiToUrls : ApiResult → Option (List (List Char))
  | .ok l => some l
  | .quota => none
  | .failed => none

/-- The gateway: call primary; on `None` or quota, call fallback and merge the
outcomes exactly as the source does.  Returns the final `api_results` (`some`
when it ends as a list) and whether the fallback provider was called. -/
def searchWithFallback (primary fallback : ApiResult) : Option (List (List Char)) × Bool :=
  let quotaHit := primary = ApiResult.quota
  let primFailed := primary = ApiResult.failed
  if primFailed ∨ quotaHit then
    match fallback with
    | .quota => (if quotaHit then none else apiToUrls primary, true)
    | .failed => (if quotaHit then none else apiToUrls primary, true)
    | .ok l => (some l, true)
  else (apiToUrls primary, false)

/-- The URL-accumulation step after a gateway call in scrape_content's website
branch (content.py:765-775): keep order, drop URLs already collected for this
domain or already scraped globally. -/
def collectUrls (res : Option (List (List Char))) (acc seen : List (List Char)) :
    List (List Char) :=
  match res with
  | none => acc
  | some urls =>
    urls.foldl (fun a u => if !(a.contains u) && !(seen.contains u) then a ++ [u] else a) acc

/-! ### The LLM HTTP call (call_ai_api, src/functions/ai.py) -/

/-- One HTTP round trip of `call_ai_api` as the environment resolves it.
`okBody none` is a 2xx response whose JSON lacks `choices`, `message` or
`content` (the `ValueError` path). -/
inductive HttpOutcome where
  | timeout
  | httpError (status : Nat)
  | reqError
  | okBody (content : Option (List Char))

structure AiCall where
  raw : Option (List Char)
  cleaned : Option (List Char)
  requests : Nat
  sleeps : List Nat
deriving Repr

/-- `call_ai_api` (src/functions/ai.py:62-147): one POST of a fixed payload; a
429 status waits 61s and retries the identical request exactly once; any other
HTTP status error, transport error, timeout or malformed body fails the call
with `(None, None)`.  `outcomes k` resolves the `k`-th POST of this call;
`requests`/`sleeps` record how many POSTs were made and which waits occurred. -/
def call_ai_api (outcomes : Nat → HttpOutcome) : AiCall :=
  match outcomes 0 with
  | .okBody (some c) => ⟨some c, some (clean_thinking_tags c), 1, []⟩
  | .okBody none => ⟨none, none, 1, []⟩
  | .timeout => ⟨none, none, 1, []⟩
  | .reqError => ⟨none, none, 1, []⟩
  | .httpError status =>
    if status = 429 then
      match outcomes 1 with
      | .okBody (some c) => ⟨some c, some (clean_thinking_tags c), 2, [61]⟩
      | .okBody none => ⟨none, none, 2, [61]⟩
      | .timeout => ⟨none, none, 2, [61]⟩
      | .reqError => ⟨none, none, 2, [61]⟩
      | .httpError _ => ⟨none, none, 2, [61]⟩
    else ⟨none, none, 1, []⟩

/-- C5: the dispatcher's classification is pure and total, maps every item to
exactly one of the three strategies, and obeys the precedence
reddit-pattern > explicit direct-URL membership > website: a reddit-style item
is never routed to the website (or direct) strategy even when it is a URL in
the direct set, a non-reddit member of the direct set goes to the direct
strategy, and every remaining item goes to the website strategy. -/
theorem C5_classification_total_precedence (dset : List (List Char)) (item : List Char) :
    (is_reddit_source item = true → classify dset item = .reddit)
    ∧ (is_reddit_source item = false → dset.contains item = true →
        classify dset item = .direct)
    ∧ (is_reddit_source item = false → dset.contains item = false →
        classify dset item = .website)
    ∧ classify dset item ≠ .unknown
    ∧ (is_reddit_source item = true ∨ is_direct_url dset item = true ∨
        is_website_source dset item = true)
    ∧ ¬(is_reddit_source item = true ∧ is_direct_url dset item = true)
    ∧ ¬(is_reddit_source item = true ∧ is_website_source dset item = true)
    ∧ ¬(is_direct_url dset item = true ∧ is_website_source dset item = true) := by
  unfold classify is_website_source is_direct_url
  cases h1 : is_reddit_source item <;> cases h2 : dset.contains item <;> simp

/-- Witness for C5 at concrete inputs: a reddit-style URL that is also a member
of the direct-URL set still goes to the reddit strategy; a non-reddit member of
the direct set goes to the direct strategy; anything else goes to website. -/
theorem C5_classification_total_precedence_witness :
    classify ["https://reddit.com/r/space".toList] "https://reddit.com/r/space".toList
        = .reddit
    ∧ classify ["https://ex.com/a".toList] "https://ex.com/a".toList = .direct
    ∧ classify [] "example.com".toList = .website :=
  ⟨(C5_classification_total_precedence _ _).1 (by decide),
   (C5_classification_total_precedence _ _).2.1 (by decide) (by decide),
   (C5_classification_total_precedence _ _).2.2.1 (by decide) (by decide)⟩

/-- C2: the gateway calls the fallback provider iff the primary returned `None`
or the quota marker; primary quota + fallback URL list means the result is
exactly the fallback's list; double quota exhaustion yields no URLs (the
result is not a list, so the caller's collection step adds nothing and the
query simply contributes zero URLs rather than failing). -/
theorem C2_gateway_fallback (primary fallback : ApiResult) :
    ((searchWithFallback primary fallback).2 = true ↔
      primary = .failed ∨ primary = .quota)
    ∧ (∀ l, primary = .quota → fallback = .ok l →
        (searchWithFallback primary fallback).1 = some l)
    ∧ (primary = .quota → fallback = .quota →
        (searchWithFallback primary fallback).1 = none)
    ∧ (primary = .quota → fallback = .quota → ∀ acc seen,
        collectUrls (searchWithFallback primary fallback).1 acc seen = acc) := by
  cases primary <;> cases fallback <;>
    simp [searchWithFallback, apiToUrls, collectUrls]

/-- Witness for C2: primary quota + fallback `[url1, url2]` returns exactly
`[url1, url2]`; quota on both sides returns no URLs but leaves the caller's
accumulator untouched. -/
theorem C2_gateway_fallback_witness :
    (searchWithFallback .quota (.ok ["url1".toList, "url2".toList])).1
        = some ["url1".toList, "url2".toList]
    ∧ (searchWithFallback .quota .quota).1 = none
    ∧ collectUrls (searchWithFallback .quota .quota).1 ["kept".toList] [] = ["kept".toList] :=
  ⟨(C2_gateway_fallback _ _).2.1 _ rfl rfl,
   (C2_gateway_fallback _ _).2.2.1 rfl rfl,
   (C2_gateway_fallback _ _).2.2.2 rfl rfl _ _⟩

/-- C9: an HTTP 429 triggers exactly one retry of the same request after a
fixed 61-second wait; any other HTTP error status fails the call immediately
with a single request and no retry; and if the single 429 retry does not
produce a well-formed body, the whole call fails with `(None, None)`. -/
theorem C9_http429_single_retry (outcomes : Nat → HttpOutcome) :
    (outcomes 0 = .httpError 429 →
      (call_ai_api outcomes).requests = 2 ∧ (call_ai_api outcomes).sleeps = [61])
    ∧ (∀ s, outcomes 0 = .httpError s → s ≠ 429 →
      (call_ai_api outcomes).requests = 1 ∧ (call_ai_api outcomes).sleeps = []
        ∧ (call_ai_api outcomes).raw = none ∧ (call_ai_api outcomes).cleaned = none)
    ∧ (outcomes 0 = .httpError 429 → (∀ c, outcomes 1 ≠ .okBody (some c)) →
      (call_ai_api outcomes).raw = none ∧ (call_ai_api outcomes).cleaned = none)
    ∧ (∀ c, outcomes 0 = .httpError 429 → outcomes 1 = .okBody (some c) →
      (call_ai_api outcomes).raw = some c) := by
  refine ⟨?_, ?_, ?_, ?_⟩
  · intro h
    rw [call_ai_api, h]
    cases h1 : outcomes 1 with
    | okBody c => cases c <;> simp
    | timeout => simp
    | reqError => simp
    | httpError s => simp
  · intro s h hne
    rw [call_ai_api, h]
    simp [hne]
  · intro h hfail
    rw [call_ai_api, h]
    cases h1 : outcomes 1 with
    | okBody c =>
      cases c with
      | none => simp
      | some c' => exact absurd h1 (hfail c')
    | timeout => simp
    | reqError => simp
    | httpError s => simp
  · intro c h h1
    rw [call_ai_api, h, h1]
    simp

/-- Witness for C9: a 429 followed by a well-formed body makes two requests,
sleeps 61 seconds once, and succeeds; a 500 fails immediately in one request. -/
theorem C9_http429_single_retry_witness :
    (call_ai_api (fun k => if k = 0 then .httpError 429
        else .okBody (some "hello".toList))).requests = 2
    ∧ (call_ai_api (fun k => if k = 0 then .httpError 429
        else .okBody (some "hello".toList))).sleeps = [61]
    ∧ (call_ai_api (fun k => if k = 0 then .httpError 429
        else .okBody (some "hello".toList))).raw = some "hello".toList
    ∧ (call_ai_api (fun _ => .httpError 500)).requests = 1 :=
  ⟨((C9_http429_single_retry _).1 rfl).1,
   ((C9_http429_single_retry _).1 rfl).2,
   (C9_http429_single_retry _).2.2.2 _ rfl rfl,
   ((C9_http429_single_retry _).2.1 500 rfl (by omega)).1⟩

/-! ### Summarization (summarize_content, src/functions/processing/summarization.py) -/

/-- A scraped content record (`{"url": ..., "content": ...}`). -/
structure ContentRecord where
  url : List Char
  content : List Char
deriving DecidableEq, Repr

/-- A pre-loaded reference document (`{"path": ..., "content": ...}`). -/
structure RefDoc where
  path : List Char
  content : List Char
deriving DecidableEq, Repr

inductive ItemType where
  | scraped
  | reference
deriving DecidableEq, Repr

/-- An entry of `content_to_process` (summarization.py:19-46). -/
structure ProcessItem where
  itype : ItemType
  content : List Char
  source_id : List Char
deriving DecidableEq, Repr

/-- A summary record (`{"type", "source_id", "summary", "score"}`,
summarization.py:180). -/
structure SummaryRecord where
  itype : ItemType
  source_id : List Char
  summary : List Char
  score : Int
deriving DecidableEq, Repr

/-- Decimal rendering of a number, for the f-string interpolations. -/
def natL (n : Nat) : List Char := (Nat.repr n).toList

def apiFailSummary (i : Nat) (sid : List Char) : List Char :=
  "Error: Could not summarize text piece ".toList ++ natL i ++ " (".toList ++ sid
    ++ ") (API call failed)".toList

def tagMissingSummary (i : Nat) (sid : List Char) : List Char :=
  "Error: Could not parse summary ".toList ++ natL i ++ " (".toList ++ sid
    ++ ") (<toolScrapeSummary> tag missing after 3 attempts)".toList

def emptyTagSummary (i : Nat) (sid : List Char) : List Char :=
  "Error: Could not parse summary ".toList ++ natL i ++ " (".toList ++ sid
    ++ ") (empty tag)".toList

def summaryTagL : List Char := "toolScrapeSummary".toList

/-- The literal `'<toolScrapeSummary>'` tested against `cleaned_response.lower()`
on summarization.py:132 (tested verbatim, mixed case and all). -/
def summaryTagLiteralL : List Char := "<toolScrapeSummary>".toList

def summaryScoreOpenL : List Char := "<summaryscore>".toList

def summaryScoreCloseL : List Char := "</summaryscore>".toList

def digitVal (c : Char) : Nat := c.toNat - '0'.toNat

/-- Try `re.search`'s pattern `<summaryScore>(\d{1,2})</summaryScore>`
(case-insensitive) at one position of the lowered text: the greedy `{1,2}`
takes two digits when the closing tag follows them, else backtracks to one. -/
def scoreMatchAt (ls : List Char) (i : Nat) : Option Nat :=
  if summaryScoreOpenL.isPrefixOf (ls.drop i) then
    match ls.drop (i + summaryScoreOpenL.length) with
    | [] => none
    | d1 :: rest1 =>
      if d1.isDigit then
        match rest1 with
        | [] => none
        | d2 :: rest2 =>
          if d2.isDigit && summaryScoreCloseL.isPrefixOf rest2 then
            some (digitVal d1 * 10 + digitVal d2)
          else if summaryScoreCloseL.isPrefixOf rest1 then some (digitVal d1)
          else none
      else none
  else none

def scoreSearchAux (ls : List Char) : Nat → Nat → Option Nat
  | _, 0 => none
  | i, fuel + 1 =>
    match scoreMatchAt ls i with
    | some v => some v
    | none => scoreSearchAux ls (i + 1) fuel

/-- `re.search(r'<summaryScore>(\d{1,2})</summaryScore>', resp, re.IGNORECASE)`:
the leftmost position where the pattern matches (summarization.py:156). -/
def scoreSearch (resp : List Char) : Option Nat :=
  scoreSearchAux (lowerStr resp) 0 (resp.length + 1)

/-- Score extraction on parse success (summarization.py:156-175): a parsed
score in `[0, 10]` is kept, an out-of-range or missing score becomes `-1`
(the parsed digits are a `Nat`, so `0 <= parsed_score` always holds). -/
def scoreFrom (resp : List Char) : Int :=
  match scoreSearch resp with
  | some v => if v ≤ 10 then (v : Int) else -1
  | none => -1

/-- The per-item retry loop of summarize_content (summarization.py:107-178).
`resps attempt` is the cleaned response of that attempt's API call (`none` =
API failure).  `attempt` is the current 0-based attempt index and `left` the
remaining iterations of `range(max_retries)` (`attempt + left = 3`, so the
source's `attempt < max_retries - 1` is `0 < left - 1`).  Returns the summary
text, the score, the number of attempts performed, and the retry delays. -/
def summarizeLoop (resps : Nat → Option (List Char)) (i : Nat) (sid : List Char) :
    Nat → Nat → List Char × Int × Nat × List Nat
  | attempt, 0 => ("Error: Summarization Failed (Unknown)".toList, -1, attempt, [])
  | attempt, l + 1 =>
    match resps attempt with
    | none => (apiFailSummary i sid, -1, attempt + 1, [])
    | some resp =>
      let parsed := parse_ai_tool_response resp summaryTagL
      if parsed = resp ∧ containsSub summaryTagLiteralL (lowerStr resp) = false then
        if 0 < l then
          let r := summarizeLoop resps i sid (attempt + 1) l
          (r.1, r.2.1, r.2.2.1, 5 :: r.2.2.2)
        else (tagMissingSummary i sid, -1, attempt + 1, [])
      else if parsed.isEmpty then (emptyTagSummary i sid, -1, attempt + 1, [])
      else (parsed, scoreFrom resp, attempt + 1, [])

/-- Building `content_to_process` (summarization.py:19-46): scraped records
with a non-empty url and content, then the reference documents when
`--reference-docs-summarize` is on. -/
def content_to_process (scraped_data : List ContentRecord) (reference_docs : List RefDoc)
    (reference_docs_summarize : Bool) : List ProcessItem :=
  (scraped_data.filterMap fun d =>
    if d.content ≠ [] ∧ d.url ≠ [] then some ⟨.scraped, d.content, d.url⟩ else none)
    ++ (if reference_docs_summarize then
          reference_docs.map (fun doc => ProcessItem.mk .reference doc.content doc.path)
        else [])

/-- One iteration of the summarization loop for item `i` (summarization.py:59-192):
an item whose content is shorter than 100 characters is skipped with `continue`
and leaves no record at all; every other item yields exactly one record from
the retry loop.  Input truncation (lines 84-92) only shapes the prompt, which
the response oracle already absorbs. -/
def summarizeItem (resps : Nat → Option (List Char)) (i : Nat) (item : ProcessItem) :
    Option SummaryRecord :=
  if item.content.length < 100 then none
  else
    let r := summarizeLoop resps i item.source_id 0 3
    some ⟨item.itype, item.source_id, r.1, r.2.1⟩

/-- `summarize_content` (summarization.py): the full summarization phase.
`resps i attempt` is the cleaned response of the API call for the item at
1-based position `i` of `content_to_process` on the given attempt. -/
def summarize_content (resps : Nat → Nat → Option (List Char))
    (scraped_data : List ContentRecord) (reference_docs : List RefDoc)
    (reference_docs_summarize : Bool) : List SummaryRecord :=
  let items := content_to_process scraped_data reference_docs reference_docs_summarize
  (items.enumFrom 1).filterMap (fun p => summarizeItem (resps p.1) p.1 p.2)

/-! ### Case-folding facts -/

theorem toNat_ofNat_valid {m : Nat} (h1 : m < 55296) : (Char.ofNat m).toNat = m := by
  unfold Char.ofNat
  rw [dif_pos (Or.inl h1)]
  rfl

theorem toLower_toLower (c : Char) : c.toLower.toLower = c.toLower := by
  unfold Char.toLower
  by_cases h : 65 ≤ c.toNat ∧ c.toNat ≤ 90
  · rw [if_pos h]
    have hv : (Char.ofNat (c.toNat + 32)).toNat = c.toNat + 32 := toNat_ofNat_valid (by omega)
    rw [if_neg (by omega)]
  · rw [if_neg h, if_neg h]

theorem lowerStr_idem (t : List Char) : lowerStr (lowerStr t) = lowerStr t := by
  simp only [lowerStr, List.map_map]
  exact List.map_congr_left fun c _ => toLower_toLower c

theorem lowerStr_drop (t : List Char) (i : Nat) :
    lowerStr (t.drop i) = (lowerStr t).drop i := by
  simp [lowerStr, List.map_drop]

/-- If a pattern's lowered form does not occur in an already-lowered text, the
pattern itself (in whatever casing) does not occur there either. -/
theorem containsSub_of_lowered_absent {pat t : List Char}
    (h : containsSub (lowerStr pat) (lowerStr t) = false) :
    containsSub pat (lowerStr t) = false := by
  by_contra hc
  have hocc : Occurs pat (lowerStr t) := by
    rw [occurs_iff_containsSub]
    revert hc
    cases containsSub pat (lowerStr t) <;> simp
  obtain ⟨i, hpre⟩ := hocc
  have hmap : lowerStr pat <+: lowerStr ((lowerStr t).drop i) := hpre.map Char.toLower
  rw [lowerStr_drop, lowerStr_idem] at hmap
  have : Occurs (lowerStr pat) (lowerStr t) := ⟨i, hmap⟩
  rw [occurs_iff_containsSub, h] at this
  exact absurd this (by simp)

/-- The full-text fallback of the parser: when the (case-insensitive) open tag
is entirely absent from a response that is already a fixed point of cleaning,
the parser returns the whole response unchanged. -/
theorem parse_eq_self_of_tag_absent {resp tag : List Char}
    (hclean : clean_thinking_tags resp = resp)
    (habs : containsSub (lowerStr ('<' :: tag ++ ['>'])) (lowerStr resp) = false) :
    parse_ai_tool_response resp tag = resp := by
  unfold parse_ai_tool_response
  rw [hclean]
  by_cases hemp : resp.isEmpty
  · rw [if_pos hemp]
    exact (List.isEmpty_iff.mp hemp).symm
  · rw [if_neg hemp]
    have hne : lowerStr ('<' :: tag ++ ['>']) ≠ [] := by simp [lowerStr]
    have hnone : rfindSub (lowerStr ('<' :: tag ++ ['>'])) (lowerStr resp) = none := by
      rw [rfindSub_none_iff hne]
      intro i hpre
      have : Occurs (lowerStr ('<' :: tag ++ ['>'])) (lowerStr resp) := ⟨i, hpre⟩
      rw [occurs_iff_containsSub, habs] at this
      exact absurd this (by simp)
    simp only [hnone]

/-! ### The summarizer's retry discipline, step lemmas -/

theorem summarizeLoop_retry_step (resps : Nat → Option (List Char)) (i : Nat)
    (sid : List Char) (attempt l : Nat) (r : List Char)
    (hr : resps attempt = some r)
    (hparse : parse_ai_tool_response r summaryTagL = r)
    (habs : containsSub summaryTagLiteralL (lowerStr r) = false)
    (hl : 0 < l) :
    summarizeLoop resps i sid attempt (l + 1)
      = ((summarizeLoop resps i sid (attempt + 1) l).1,
         (summarizeLoop resps i sid (attempt + 1) l).2.1,
         (summarizeLoop resps i sid (attempt + 1) l).2.2.1,
         5 :: (summarizeLoop resps i sid (attempt + 1) l).2.2.2) := by
  simp only [summarizeLoop, hr]
  rw [if_pos ⟨hparse, habs⟩, if_pos hl]

theorem summarizeLoop_final_fail (resps : Nat → Option (List Char)) (i : Nat)
    (sid : List Char) (attempt : Nat) (r : List Char)
    (hr : resps attempt = some r)
    (hparse : parse_ai_tool_response r summaryTagL = r)
    (habs : containsSub summaryTagLiteralL (lowerStr r) = false) :
    summarizeLoop resps i sid attempt 1 = (tagMissingSummary i sid, -1, attempt + 1, []) := by
  simp only [summarizeLoop, hr]
  rw [if_pos ⟨hparse, habs⟩, if_neg (by omega)]

theorem summarizeLoop_empty_tag (resps : Nat → Option (List Char)) (i : Nat)
    (sid : List Char) (attempt l : Nat) (r : List Char)
    (hr : resps attempt = some r)
    (hne : ¬(parse_ai_tool_response r summaryTagL = r ∧
        containsSub summaryTagLiteralL (lowerStr r) = false))
    (hempty : (parse_ai_tool_response r summaryTagL).isEmpty = true) :
    summarizeLoop resps i sid attempt (l + 1) = (emptyTagSummary i sid, -1, attempt + 1, []) := by
  simp only [summarizeLoop, hr]
  rw [if_neg hne, if_pos hempty]

/-- C3: a parse failure with the summary tag entirely absent from the cleaned
response is retried with a fixed 5-second delay up to the full 3 attempts, and
exhausting them leaves an error-marker summary with score `-1`; a response
whose tag is present but whose extracted content is empty is terminal for the
item after a single attempt, with no retry and no delay. -/
theorem C3_summarizer_retry_modes (resps : Nat → Option (List Char)) (i : Nat)
    (sid : List Char) :
    ((∀ a, a < 3 → ∃ r, resps a = some r ∧ clean_thinking_tags r = r ∧
        containsSub (lowerStr ('<' :: summaryTagL ++ ['>'])) (lowerStr r) = false) →
      summarizeLoop resps i sid 0 3 = (tagMissingSummary i sid, -1, 3, [5, 5]))
    ∧ (∀ r, resps 0 = some r → clean_thinking_tags r = r → r ≠ [] →
        parse_ai_tool_response r summaryTagL = [] →
        summarizeLoop resps i sid 0 3 = (emptyTagSummary i sid, -1, 1, [])) := by
  constructor
  · intro h
    obtain ⟨r0, hr0, hc0, ha0⟩ := h 0 (by omega)
    obtain ⟨r1, hr1, hc1, ha1⟩ := h 1 (by omega)
    obtain ⟨r2, hr2, hc2, ha2⟩ := h 2 (by omega)
    have habs0 : containsSub summaryTagLiteralL (lowerStr r0) = false :=
      containsSub_of_lowered_absent (by exact ha0)
    have habs1 : containsSub summaryTagLiteralL (lowerStr r1) = false :=
      containsSub_of_lowered_absent (by exact ha1)
    have habs2 : containsSub summaryTagLiteralL (lowerStr r2) = false :=
      containsSub_of_lowered_absent (by exact ha2)
    rw [show (3 : Nat) = 2 + 1 by rfl,
      summarizeLoop_retry_step resps i sid 0 2 r0 hr0 (parse_eq_self_of_tag_absent hc0 ha0)
        habs0 (by omega),
      show (2 : Nat) = 1 + 1 by rfl,
      summarizeLoop_retry_step resps i sid 1 1 r1 hr1 (parse_eq_self_of_tag_absent hc1 ha1)
        habs1 (by omega),
      summarizeLoop_final_fail resps i sid 2 r2 hr2 (parse_eq_self_of_tag_absent hc2 ha2)
        habs2]
  · intro r hr hc hne hparse
    rw [show (3 : Nat) = 2 + 1 by rfl]
    refine summarizeLoop_empty_tag resps i sid 0 2 r hr ?_ (by simp [hparse])
    rintro ⟨heq, -⟩
    exact hne (heq ▸ hparse.symm ▸ hparse)

/-- Witness for C3: an untagged response is retried on all 3 attempts (delays
`[5, 5]`) and ends in the tag-missing error marker with score `-1`; a response
with an empty summary tag ends after one attempt in the empty-tag error marker
with score `-1`. -/
theorem C3_summarizer_retry_modes_witness :
    summarizeLoop (fun _ => some "no tags here".toList) 1 "src".toList 0 3
        = (tagMissingSummary 1 "src".toList, -1, 3, [5, 5])
    ∧ summarizeLoop (fun _ => some "<toolScrapeSummary> </toolScrapeSummary>".toList) 1
        "src".toList 0 3
        = (emptyTagSummary 1 "src".toList, -1, 1, []) :=
  ⟨(C3_summarizer_retry_modes _ 1 _).1
      (fun a _ => ⟨"no tags here".toList, rfl, by decide, by decide⟩),
   (C3_summarizer_retry_modes _ 1 _).2 _ rfl (by decide) (by decide) (by decide)⟩

/-! ### Score bounds -/

theorem summarizeLoop_score_bounds (resps : Nat → Option (List Char)) (i : Nat)
    (sid : List Char) : ∀ l attempt,
    (summarizeLoop resps i sid attempt l).2.1 = -1
    ∨ (0 ≤ (summarizeLoop resps i sid attempt l).2.1
        ∧ (summarizeLoop resps i sid attempt l).2.1 ≤ 10) := by
  intro l
  induction l with
  | zero => intro attempt; left; rfl
  | succ l ih =>
    intro attempt
    cases hr : resps attempt with
    | none => left; simp [summarizeLoop, hr]
    | some resp =>
      simp only [summarizeLoop, hr]
      by_cases h1 : parse_ai_tool_response resp summaryTagL = resp ∧
          containsSub summaryTagLiteralL (lowerStr resp) = false
      · rw [if_pos h1]
        by_cases h2 : 0 < l
        · rw [if_pos h2]
          exact ih (attempt + 1)
        · rw [if_neg h2]; left; rfl
      · rw [if_neg h1]
        by_cases h3 : (parse_ai_tool_response resp summaryTagL).isEmpty
        · rw [if_pos h3]; left; rfl
        · rw [if_neg h3]
          unfold scoreFrom
          cases hs : scoreSearch resp with
          | none => dsimp only; left; rfl
          | some v =>
            dsimp only
            by_cases h4 : v ≤ 10
            · right
              rw [if_pos h4]
              constructor
              · exact Int.natCast_nonneg v
              · exact_mod_cast h4
            · left
              rw [if_neg h4]

/-- C4: every SummaryRecord's score lies in `{-1} ∪ [0, 10]`, and on the
success path an out-of-range parsed score, or a missing/unmatchable score tag,
is normalised to `-1` while the parsed summary text itself is kept. -/
theorem C4_score_normalisation :
    (∀ (resps : Nat → Nat → Option (List Char)) scraped refs flag,
      ∀ r ∈ summarize_content resps scraped refs flag,
        r.score = -1 ∨ (0 ≤ r.score ∧ r.score ≤ 10))
    ∧ (∀ (resps : Nat → Option (List Char)) (i : Nat) (sid : List Char)
        (attempt l : Nat) (resp : List Char),
        resps attempt = some resp →
        ¬(parse_ai_tool_response resp summaryTagL = resp ∧
            containsSub summaryTagLiteralL (lowerStr resp) = false) →
        (parse_ai_tool_response resp summaryTagL).isEmpty = false →
        ((∀ v, scoreSearch resp = some v → 10 < v →
            summarizeLoop resps i sid attempt (l + 1)
              = (parse_ai_tool_response resp summaryTagL, -1, attempt + 1, []))
          ∧ (scoreSearch resp = none →
            summarizeLoop resps i sid attempt (l + 1)
              = (parse_ai_tool_response resp summaryTagL, -1, attempt + 1, [])))) := by
  constructor
  · intro resps scraped refs flag r hr
    rw [summarize_content, List.mem_filterMap] at hr
    obtain ⟨⟨n, item⟩, _, hsome⟩ := hr
    rw [summarizeItem] at hsome
    by_cases hshort : item.content.length < 100
    · rw [if_pos hshort] at hsome
      exact absurd hsome (by simp)
    · rw [if_neg hshort] at hsome
      have hb := summarizeLoop_score_bounds (resps n) n item.source_id 3 0
      obtain rfl := Option.some_inj.mp hsome
      simpa using hb
  · intro resps i sid attempt l resp hr hne hfull
    constructor
    · intro v hv h10
      simp only [summarizeLoop, hr]
      rw [if_neg hne, if_neg (by simp [hfull])]
      simp only [scoreFrom, hv]
      rw [if_neg (by omega)]
    · intro hv
      simp only [summarizeLoop, hr]
      rw [if_neg hne, if_neg (by simp [hfull])]
      simp only [scoreFrom, hv]

/-- Witness for C4: a well-tagged summary whose score tag reads `99` keeps the
summary text and is normalised to score `-1`, and a full pipeline run over one
long-enough item records that bounded score. -/
theorem C4_score_normalisation_witness :
    summarizeLoop
        (fun _ => some "<toolScrapeSummary>sum</toolScrapeSummary><summaryScore>99</summaryScore>".toList)
        1 "u".toList 0 3
      = (parse_ai_tool_response
          "<toolScrapeSummary>sum</toolScrapeSummary><summaryScore>99</summaryScore>".toList
          summaryTagL, -1, 1, [])
    ∧ parse_ai_tool_response
        "<toolScrapeSummary>sum</toolScrapeSummary><summaryScore>99</summaryScore>".toList
        summaryTagL = "sum".toList
    ∧ ((-1 : Int) = -1 ∨ (0 ≤ (-1 : Int) ∧ (-1 : Int) ≤ 10)) :=
  ⟨(C4_score_normalisation.2 _ 1 _ 0 2 _ rfl (by decide) (by decide)).1 99 (by decide)
      (by omega),
   by decide,
   C4_score_normalisation.1 (fun _ _ =>
        some "<toolScrapeSummary>sum</toolScrapeSummary><summaryScore>99</summaryScore>".toList)
      [⟨"u".toList, List.replicate 100 'a'⟩] [] false
      ⟨.scraped, "u".toList, "sum".toList, -1⟩ (by decide)⟩

/-! ### Short items leave no record (C10) -/

theorem summarize_content_spec (resps : Nat → Nat → Option (List Char)) :
    ∀ (items : List ProcessItem) (n : Nat),
      ((items.enumFrom n).filterMap (fun p => summarizeItem (resps p.1) p.1 p.2)).map
          (fun r => r.source_id)
        = (items.filter (fun it => 100 ≤ it.content.length)).map (fun it => it.source_id) := by
  intro items
  induction items with
  | nil => intro n; rfl
  | cons it rest ih =>
    intro n
    simp only [List.enumFrom, List.filterMap_cons, List.filter_cons]
    by_cases h : it.content.length < 100
    · rw [show summarizeItem (resps n) n it = none by simp [summarizeItem, h]]
      rw [show decide (100 ≤ it.content.length) = false by simp; omega]
      simpa using ih (n + 1)
    · rw [show summarizeItem (resps n) n it
          = some ⟨it.itype, it.source_id, (summarizeLoop (resps n) n it.source_id 0 3).1,
              (summarizeLoop (resps n) n it.source_id 0 3).2.1⟩ by simp [summarizeItem, h]]
      rw [show decide (100 ≤ it.content.length) = true by simp; omega]
      simpa using ih (n + 1)

/-- C10: an input item whose content is shorter than 100 characters yields no
SummaryRecord at all — not even an error-marker one — so the summarizer's
records are exactly those of the long-enough items (in order), its output can
be strictly shorter than its processing list, and a skipped-short item is
indistinguishable in the output from one never submitted. -/
theorem C10_short_items_silently_skipped :
    (∀ (resps : Nat → Nat → Option (List Char)) scraped refs flag,
      (summarize_content resps scraped refs flag).map (fun r => r.source_id)
        = ((content_to_process scraped refs flag).filter
            (fun it => 100 ≤ it.content.length)).map (fun it => it.source_id)
      ∧ (summarize_content resps scraped refs flag).length
        = ((content_to_process scraped refs flag).filter
            (fun it => 100 ≤ it.content.length)).length)
    ∧ summarize_content (fun _ _ => none) [⟨"u".toList, "short".toList⟩] [] false = [] := by
  constructor
  · intro resps scraped refs flag
    have hmap := summarize_content_spec resps (content_to_process scraped refs flag) 1
    refine ⟨hmap, ?_⟩
    have h1 := congrArg List.length hmap
    simpa using h1
  · decide

/-! ### Report generation and refinement
(src/functions/processing/report_generation.py and report_builder.py:1932-1982) -/

/-- `s['summary'].startswith("Error:")` (report_generation.py:21). -/
def isErrorSummary (s : SummaryRecord) : Bool := "Error:".toList.isPrefixOf s.summary

/-- `valid_summaries` (report_generation.py:21): score at or above the caller's
threshold and a non-error summary text. -/
def valid_summaries (summaries : List SummaryRecord) (score_threshold : Int) :
    List SummaryRecord :=
  summaries.filter (fun s => decide (score_threshold ≤ s.score) && !(isErrorSummary s))

/-- Stable insertion of a record in front of the first strictly-smaller score;
folding it reproduces Python's stable `sorted(..., key=score, reverse=True)`
(report_generation.py:27): equal scores keep their original relative order. -/
def insertDesc (x : SummaryRecord) : List SummaryRecord → List SummaryRecord
  | [] => [x]
  | y :: ys => if y.score ≤ x.score then x :: y :: ys else y :: insertDesc x ys

def sortDescByScore (l : List SummaryRecord) : List SummaryRecord :=
  l.foldr insertDesc []

/-- The parse-with-retry loop shared verbatim by generate_report
(report_generation.py:97-130) and refine_report_presentation (462-496):
`cur` is the current cleaned response (`none` after a failed retry call, whose
next parse attempt sees an empty text, exactly like the Python `None`),
`attempt + left = 3`, so the source's `attempt < max_retries - 1` is `0 < l`.
Returns the parsed tag content, or `none` once all 3 parse attempts fail. -/
def parseRetryGo (tag : List Char) (resps : Nat → Option (List Char)) :
    Nat → Nat → Option (List Char) → Option (List Char)
  | _, 0, _ => none
  | attempt, l + 1, cur =>
    let curText := cur.getD []
    let parsed := parse_ai_tool_response curText tag
    if parsed.isEmpty ∨ parsed = clean_thinking_tags curText then
      if 0 < l then parseRetryGo tag resps (attempt + 1) l (resps (attempt + 1))
      else none
    else some parsed

/-- The initial call plus the retry loop of both passes: `resps k` is the
cleaned response of the `k`-th LLM call of the pass; a failed initial call
aborts before the loop, exactly as in the source. -/
def parseWithRetry (tag : List Char) (resps : Nat → Option (List Char)) :
    Option (List Char) :=
  match resps 0 with
  | none => none
  | some r0 => parseRetryGo tag resps 0 3 (some r0)

/-- `generate_report` (report_generation.py:15-185), modulo prompt text and
file persistence: filter and sort the summaries, count the directly-usable
reference documents, fail fatally (`none`) when the context is empty, then run
the tagged-parse retry loop.  Returns the pass-1 report text together with
`top_summaries`, the sorted context records. -/
def generate_report (resps : Nat → Option (List Char)) (summaries : List SummaryRecord)
    (reference_docs : List RefDoc) (score_threshold : Int)
    (reference_docs_summarize : Bool) : Option (List Char × List SummaryRecord) :=
  let valid := valid_summaries summaries score_threshold
  let top_summaries := sortDescByScore valid
  let num_ref_docs_used :=
    if reference_docs ≠ [] ∧ ¬reference_docs_summarize then reference_docs.length else 0
  if valid.length = 0 ∧ num_ref_docs_used = 0 then none
  else
    match parseWithRetry "reportContent".toList resps with
    | none => none
    | some text => some (text, top_summaries)

/-- `refine_report_presentation` (report_generation.py:368-556), modulo prompt
text and persistence: empty input aborts, then the same 3-attempt tagged-parse
retry loop runs; `none` means refinement failed. -/
def refine_report_presentation (resps : Nat → Option (List Char))
    (initial_report_content : List Char) : Option (List Char) :=
  if initial_report_content.isEmpty then none
  else parseWithRetry "refinedReport".toList resps

/-- Steps 5-6 of the main workflow (report_builder.py:1932-1982): a failed
initial generation raises a fatal RuntimeError (`none`); otherwise the final
report is the refined one when refinement runs and succeeds, and the pass-1
report when refinement is skipped or fails. -/
def pipelineReportPhase (genResps refineResps : Nat → Option (List Char))
    (summaries : List SummaryRecord) (reference_docs : List RefDoc)
    (score_threshold : Int) (reference_docs_summarize skip_refinement : Bool) :
    Option (List Char) :=
  match generate_report genResps summaries reference_docs score_threshold
      reference_docs_summarize with
  | none => none
  | some (initial, _tops) =>
    if skip_refinement then some initial
    else
      match refine_report_presentation refineResps initial with
      | some refined => some refined
      | none => some initial

/-! ### Insertion-sort facts -/

theorem insertDesc_perm (x : SummaryRecord) (l : List SummaryRecord) :
    (insertDesc x l).Perm (x :: l) := by
  induction l with
  | nil => exact List.Perm.refl _
  | cons y ys ih =>
    rw [insertDesc]
    by_cases h : y.score ≤ x.score
    · rw [if_pos h]
    · rw [if_neg h]
      exact (ih.cons y).trans (List.Perm.swap x y ys)

theorem sortDescByScore_perm (l : List SummaryRecord) : (sortDescByScore l).Perm l := by
  induction l with
  | nil => exact List.Perm.refl _
  | cons x xs ih =>
    exact (insertDesc_perm x (sortDescByScore xs)).trans (ih.cons x)

theorem insertDesc_pairwise (x : SummaryRecord) (l : List SummaryRecord)
    (h : List.Pairwise (fun a b => b.score ≤ a.score) l) :
    List.Pairwise (fun a b => b.score ≤ a.score) (insertDesc x l) := by
  induction l with
  | nil => simp [insertDesc]
  | cons y ys ih =>
    rw [insertDesc]
    rcases h with - | ⟨hy, hys⟩
    by_cases hxy : y.score ≤ x.score
    · rw [if_pos hxy]
      refine List.Pairwise.cons ?_ (List.Pairwise.cons hy hys)
      intro z hz
      rcases List.mem_cons.mp hz with rfl | hz'
      · exact hxy
      · exact le_trans (hy z hz') hxy
    · rw [if_neg hxy]
      refine List.Pairwise.cons ?_ (ih hys)
      intro z hz
      rcases List.mem_cons.mp ((insertDesc_perm x ys).mem_iff.mp hz) with rfl | hz'
      · omega
      · exact hy z hz'

theorem sortDescByScore_pairwise (l : List SummaryRecord) :
    List.Pairwise (fun a b => b.score ≤ a.score) (sortDescByScore l) := by
  induction l with
  | nil => simp [sortDescByScore]
  | cons x xs ih => exact insertDesc_pairwise x _ ih

theorem parseRetryGo_none_of_fail (tag : List Char) (resps : Nat → Option (List Char))
    (hall : ∀ k r, resps k = some r →
      ((parse_ai_tool_response r tag).isEmpty = true
        ∨ parse_ai_tool_response r tag = clean_thinking_tags r)) :
    ∀ left attempt cur,
      ((parse_ai_tool_response (cur.getD []) tag).isEmpty = true
        ∨ parse_ai_tool_response (cur.getD []) tag = clean_thinking_tags (cur.getD [])) →
      parseRetryGo tag resps attempt left cur = none := by
  intro left
  induction left with
  | zero => intro attempt cur _; rfl
  | succ l ih =>
    intro attempt cur hcur
    simp only [parseRetryGo]
    rw [if_pos (by simpa using hcur)]
    by_cases hl : 0 < l
    · rw [if_pos hl]
      refine ih (attempt + 1) (resps (attempt + 1)) ?_
      cases hk : resps (attempt + 1) with
      | none => simp [parse_ai_tool_response, clean_thinking_tags, cleanLoop, cleanLoopF,
          stripStr]
      | some r => simpa using hall (attempt + 1) r hk
    · rw [if_neg hl]

/-- C7: the pass-1 context (`top_summaries`) consists of exactly the records
with score at or above the threshold and a non-error summary, in descending
score order; when a report comes back, the sorted context is what is handed to
refinement; and when no summary qualifies and no non-summarized reference
document is available, generation fails fatally before any LLM call. -/
theorem C7_pass1_context_filter_sort (summaries : List SummaryRecord)
    (score_threshold : Int) :
    (sortDescByScore (valid_summaries summaries score_threshold)).Perm
        (valid_summaries summaries score_threshold)
    ∧ List.Pairwise (fun a b => b.score ≤ a.score)
        (sortDescByScore (valid_summaries summaries score_threshold))
    ∧ (∀ s, s ∈ sortDescByScore (valid_summaries summaries score_threshold) ↔
        (s ∈ summaries ∧ score_threshold ≤ s.score ∧ isErrorSummary s = false))
    ∧ (∀ (resps : Nat → Option (List Char)) reference_docs reference_docs_summarize
        text tops,
        generate_report resps summaries reference_docs score_threshold
            reference_docs_summarize = some (text, tops) →
        tops = sortDescByScore (valid_summaries summaries score_threshold))
    ∧ (∀ (resps : Nat → Option (List Char)) reference_docs reference_docs_summarize,
        valid_summaries summaries score_threshold = [] →
        (reference_docs = [] ∨ reference_docs_summarize = true) →
        generate_report resps summaries reference_docs score_threshold
          reference_docs_summarize = none) := by
  refine ⟨sortDescByScore_perm _, sortDescByScore_pairwise _, ?_, ?_, ?_⟩
  · intro s
    rw [(sortDescByScore_perm _).mem_iff, valid_summaries, List.mem_filter]
    simp
  · intro resps reference_docs reference_docs_summarize text tops h
    rw [generate_report] at h
    by_cases hcase : (valid_summaries summaries score_threshold).length = 0 ∧
        (if reference_docs ≠ [] ∧ ¬reference_docs_summarize then reference_docs.length
          else 0) = 0
    · rw [if_pos hcase] at h
      exact absurd h (by simp)
    · rw [if_neg hcase] at h
      cases hp : parseWithRetry "reportContent".toList resps with
      | none => rw [hp] at h; exact absurd h (by simp)
      | some t =>
        rw [hp] at h
        exact (Prod.mk.injEq .. ▸ Option.some_inj.mp h).2.symm ▸ rfl
  · intro resps reference_docs reference_docs_summarize hvalid hrefs
    rw [generate_report, if_pos]
    refine ⟨by rw [hvalid]; rfl, ?_⟩
    rcases hrefs with rfl | rfl
    · simp
    · simp

/-- Witness for C7: threshold 5 over scores `[8, 3, 6, -1]` keeps exactly the
records scoring 8 and 6 (descending); with no qualifying summary and no
reference documents, generation returns `none` whatever the LLM would say. -/
theorem C7_pass1_context_filter_sort_witness :
    sortDescByScore (valid_summaries
        [⟨.scraped, "a".toList, "s8".toList, 8⟩, ⟨.scraped, "b".toList, "s3".toList, 3⟩,
         ⟨.scraped, "c".toList, "s6".toList, 6⟩, ⟨.scraped, "d".toList, "sm".toList, -1⟩] 5)
      = [⟨.scraped, "a".toList, "s8".toList, 8⟩, ⟨.scraped, "c".toList, "s6".toList, 6⟩]
    ∧ generate_report (fun _ => some "<reportContent>R</reportContent>".toList)
        [⟨.scraped, "d".toList, "sm".toList, -1⟩] [] 5 false = none :=
  ⟨by decide,
   (C7_pass1_context_filter_sort _ 5).2.2.2.2 _ [] false (by decide) (Or.inl rfl)⟩

/-- C8: whenever pass-1 generation succeeds, the report phase of the pipeline
never fails: refinement failure — in particular failing to parse
`<refinedReport>` on all 3 attempts — falls back to the pass-1 report as the
final output, and a successful refinement replaces it. -/
theorem C8_refinement_failure_not_fatal
    (genResps refineResps : Nat → Option (List Char)) (summaries : List SummaryRecord)
    (reference_docs : List RefDoc) (score_threshold : Int)
    (reference_docs_summarize skip_refinement : Bool)
    (initial : List Char) (tops : List SummaryRecord)
    (hgen : generate_report genResps summaries reference_docs score_threshold
        reference_docs_summarize = some (initial, tops)) :
    (pipelineReportPhase genResps refineResps summaries reference_docs score_threshold
        reference_docs_summarize skip_refinement).isSome = true
    ∧ (refine_report_presentation refineResps initial = none → skip_refinement = false →
        pipelineReportPhase genResps refineResps summaries reference_docs score_threshold
          reference_docs_summarize skip_refinement = some initial)
    ∧ (∀ refined, refine_report_presentation refineResps initial = some refined →
        skip_refinement = false →
        pipelineReportPhase genResps refineResps summaries reference_docs score_threshold
          reference_docs_summarize skip_refinement = some refined)
    ∧ ((∀ k r, refineResps k = some r →
          ((parse_ai_tool_response r "refinedReport".toList).isEmpty = true
            ∨ parse_ai_tool_response r "refinedReport".toList = clean_thinking_tags r)) →
        skip_refinement = false →
        pipelineReportPhase genResps refineResps summaries reference_docs score_threshold
          reference_docs_summarize skip_refinement = some initial) := by
  have hrefine_fail : ∀ (hall : ∀ k r, refineResps k = some r →
      ((parse_ai_tool_response r "refinedReport".toList).isEmpty = true
        ∨ parse_ai_tool_response r "refinedReport".toList = clean_thinking_tags r)),
      refine_report_presentation refineResps initial = none := by
    intro hall
    rw [refine_report_presentation]
    by_cases hemp : initial.isEmpty
    · rw [if_pos hemp]
    · rw [if_neg hemp, parseWithRetry]
      cases h0 : refineResps 0 with
      | none => rfl
      | some r0 =>
        exact parseRetryGo_none_of_fail _ refineResps hall 3 0 (some r0)
          (by simpa using hall 0 r0 h0)
  refine ⟨?_, ?_, ?_, ?_⟩
  · simp only [pipelineReportPhase, hgen]
    by_cases hs : skip_refinement = true
    · rw [if_pos hs]; rfl
    · rw [if_neg hs]
      cases refine_report_presentation refineResps initial <;> rfl
  · intro hfail hs
    simp only [pipelineReportPhase, hgen]
    rw [if_neg (by simp [hs]), hfail]
  · intro refined hok hs
    simp only [pipelineReportPhase, hgen]
    rw [if_neg (by simp [hs]), hok]
  · intro hall hs
    simp only [pipelineReportPhase, hgen]
    rw [if_neg (by simp [hs]), hrefine_fail hall]

/-- Witness for C8: a successful pass-1 report plus a refinement LLM that never
emits the tag ends with the pass-1 report as the pipeline's final output. -/
theorem C8_refinement_failure_not_fatal_witness :
    pipelineReportPhase (fun _ => some "<reportContent>R</reportContent>".toList)
        (fun _ => some "no tag in sight".toList)
        [⟨.scraped, "u".toList, "good".toList, 8⟩] [] 5 false false
      = some "R".toList :=
  (C8_refinement_failure_not_fatal _ _ _ _ _ _ _ "R".toList
      [⟨.scraped, "u".toList, "good".toList, 8⟩] (by decide)).2.2.2
    (fun k r hr => by
      rw [Option.some_inj.mp hr.symm] at *
      right
      decide)
    rfl

/-! ### The scraping phase (scrape_content, content.py:470-822) -/

/-- Python `s.replace(pat, '')`, fuelled for structural recursion (each step
consumes at least one character, so `s.length` fuel is never exhausted). -/
def replaceSubF (pat : List Char) : Nat → List Char → List Char
  | 0, s => s
  | fuel + 1, s =>
    match s with
    | [] => []
    | c :: rest =>
      if pat ≠ [] ∧ pat.isPrefixOf (c :: rest) then
        replaceSubF pat fuel ((c :: rest).drop pat.length)
      else c :: replaceSubF pat fuel rest

def replaceSub (pat s : List Char) : List Char := replaceSubF pat s.length s

/-- `item.replace('r/', '').split('/')[0]` (content.py:519). -/
def subredditName (item : List Char) : List Char :=
  (replaceSub "r/".toList item).takeWhile (fun c => c ≠ '/')

/-- `urllib.parse.urlparse(item).netloc or item` (content.py:697), modelled for
the URL shapes this pipeline produces: the host after `"://"` up to the next
`/`, `?` or `#`; the item itself when there is no scheme or an empty host. -/
def domainOf (item : List Char) : List Char :=
  match findSub "://".toList item with
  | none => item
  | some i =>
    let host := (item.drop (i + 3)).takeWhile (fun c => c ≠ '/' ∧ c ≠ '?' ∧ c ≠ '#')
    if host.isEmpty then item else host

/-- `f"site:{domain} {search_query}"` (content.py:712). -/
def siteQuery (domain q : List Char) : List Char := "site:".toList ++ domain ++ ' ' :: q

/-- The argument fields of `args` that scrape_content reads. -/
structure ScrapeArgs where
  no_reddit : Bool
  no_search : Bool
  search_queries : List (List Char)
  max_reddit_results : Nat
  max_web_results : Nat
  apiIsGoogle : Bool

/-- The network environment of one scraping run, keyed by the concrete strings
the code would send: `fetch` is `scrape_website_url` (`some content` only when
extraction succeeds with enough text, the returned record echoing the fetched
URL); `driverOk` is Selenium driver setup for the item; `searchLinks` the raw
hrefs of one subreddit search; `postContent` the combined
title/body/comments text of one post page (`none` = timeout or error); and the
two providers' per-query outcomes. -/
structure ScrapeEnv where
  fetch : List Char → Option (List Char)
  driverOk : List Char → Bool
  searchLinks : List Char → List Char → List (List Char)
  postContent : List Char → Option (List Char)
  googleSearch : List Char → ApiResult
  braveSearch : List Char → ApiResult

/-- The mutable state of one scraping run: the growing output list, the global
URL dedup set (`seen_urls_global`, insertion-ordered), and a ghost trace of
every fetch that was issued (`driver.get` of a post page or a
`scrape_website_url` call), flagged with whether it produced a record. -/
structure ScrapeState where
  scraped_data : List ContentRecord
  seen_urls_global : List (List Char)
  trace : List (List Char × Bool)

/-- The shared fetch-then-record step of the direct-URL branch
(content.py:492-501) and the website branch's per-URL loop (787-800): skip a
URL already in the global dedup set, otherwise fetch it, and only on success
append the record and mark the URL as seen. -/
def scrapeUrlStep (env : ScrapeEnv) (st : ScrapeState) (u : List Char) : ScrapeState :=
  if st.seen_urls_global.contains u then st
  else
    match env.fetch u with
    | some content =>
      ⟨st.scraped_data ++ [⟨u, content⟩], st.seen_urls_global ++ [u],
        st.trace ++ [(u, true)]⟩
    | none => ⟨st.scraped_data, st.seen_urls_global, st.trace ++ [(u, false)]⟩

/-- The link filter of the subreddit search loop (content.py:561-568). -/
def redditLinkFilter (subName : List Char) (acc : List (List Char)) (href : List Char) :
    List (List Char) :=
  if !href.isEmpty && containsSub "/comments/".toList href && containsSub subName href
      && !(acc.contains href) && !(containsSub "/user/".toList href) then
    acc ++ [href]
  else acc

/-- `all_post_links_for_subreddit` after all search queries (content.py:543-579),
as an insertion-ordered dedup list. -/
def collectRedditLinks (env : ScrapeEnv) (subName : List Char)
    (queries : List (List Char)) : List (List Char) :=
  queries.foldl (fun acc q => (env.searchLinks subName q).foldl (redditLinkFilter subName) acc) []

/-- One post of the reddit post-scraping loop (content.py:591-672): skip posts
already seen globally, fetch the page, and keep the combined content only when
it exceeds the 100-character minimum; records are buffered per subreddit while
the dedup set and trace grow immediately. -/
def processRedditPost (env : ScrapeEnv)
    (acc : List ContentRecord × List (List Char) × List (List Char × Bool))
    (post_url : List Char) :
    List ContentRecord × List (List Char) × List (List Char × Bool) :=
  if acc.2.1.contains post_url then acc
  else
    match env.postContent post_url with
    | none => (acc.1, acc.2.1, acc.2.2 ++ [(post_url, false)])
    | some content =>
      if 100 < content.length then
        (acc.1 ++ [⟨post_url, content⟩], acc.2.1 ++ [post_url],
          acc.2.2 ++ [(post_url, true)])
      else (acc.1, acc.2.1, acc.2.2 ++ [(post_url, false)])

/-- The reddit branch (content.py:503-685): honour `--no-reddit` and
`--no-search`, extract the subreddit name, give up when the browser session
cannot be acquired, then search, cap at the posts-per-source limit, scrape
each post, and append the buffered records to the output. -/
def processReddit (env : ScrapeEnv) (args : ScrapeArgs) (item : List Char)
    (st : ScrapeState) : ScrapeState :=
  if args.no_reddit then st
  else if args.no_search then st
  else
    let subName := subredditName item
    if subName.isEmpty then st
    else if !(env.driverOk item) then st
    else
      let links := collectRedditLinks env subName args.search_queries
      let links_to_scrape := links.take args.max_reddit_results
      let r := links_to_scrape.foldl (processRedditPost env) ([], st.seen_urls_global, st.trace)
      ⟨st.scraped_data ++ r.1, r.2.1, r.2.2⟩

def providerResult (env : ScrapeEnv) (isGoogle : Bool) (q : List Char) : ApiResult :=
  if isGoogle then env.googleSearch q else env.braveSearch q

/-- One query iteration of the website branch (content.py:710-777): the
primary/fallback gateway on the `site:`-scoped query, then URL accumulation
against the per-domain set and the global dedup set. -/
def websiteQueryStep (env : ScrapeEnv) (args : ScrapeArgs) (domain : List Char)
    (seen : List (List Char)) (acc : List (List Char)) (q : List Char) :
    List (List Char) :=
  let fullQ := siteQuery domain q
  let primary := providerResult env args.apiIsGoogle fullQ
  let fallback := providerResult env (!args.apiIsGoogle) fullQ
  collectUrls (searchWithFallback primary fallback).1 acc seen

/-- The website branch (content.py:687-800): honour `--no-search`, derive the
domain, aggregate unique URLs over all queries, cap at the per-domain limit,
then scrape each URL through the shared fetch step. -/
def processWebsite (env : ScrapeEnv) (args : ScrapeArgs) (item : List Char)
    (st : ScrapeState) : ScrapeState :=
  if args.no_search then st
  else
    let domain := domainOf item
    let collected := args.search_queries.foldl
      (websiteQueryStep env args domain st.seen_urls_global) []
    let urls_to_process := collected.take args.max_web_results
    urls_to_process.foldl (scrapeUrlStep env) st

/-- The per-item dispatch of scrape_content (content.py:478-818): explicit
direct URL first, then reddit, then website; per-item exceptions and the
politeness delays do not touch the state and are elided. -/
def scrapeItemStep (env : ScrapeEnv) (args : ScrapeArgs)
    (direct_article_urls : List (List Char)) (st : ScrapeState) (item : List Char) :
    ScrapeState :=
  if is_direct_url direct_article_urls item then scrapeUrlStep env st item
  else if is_reddit_source item then processReddit env args item st
  else if is_website_source direct_article_urls item then processWebsite env args item st
  else st

/-- `scrape_content` (content.py:470-822): fold the dispatch over the source
items, starting from an empty output, an empty global dedup set, and an empty
fetch trace. -/
def scrape_content (env : ScrapeEnv) (args : ScrapeArgs)
    (sources_or_urls : List (List Char)) (direct_article_urls : List (List Char)) :
    ScrapeState :=
  sources_or_urls.foldl (scrapeItemStep env args direct_article_urls) ⟨[], [], []⟩

/-! ### The dedup invariants of the scraping fold -/

theorem not_mem_of_contains_eq_false {l : List (List Char)} {u : List Char}
    (h : l.contains u = false) : u ∉ l := by
  intro hm
  have h2 : l.contains u = true := List.elem_iff.mpr hm
  rw [h2] at h
  exact absurd h (by simp)

/-- The invariant carried through the whole scraping run: the dedup set never
repeats a URL, the output records' URLs are exactly the dedup set (in order),
and the successful fetches are exactly the dedup set as well. -/
def GoodState (st : ScrapeState) : Prop :=
  st.seen_urls_global.Nodup
  ∧ st.scraped_data.map (fun r => r.url) = st.seen_urls_global
  ∧ (st.trace.filter (fun e => e.2)).map (fun e => e.1) = st.seen_urls_global

theorem scrapeUrlStep_good (env : ScrapeEnv) (st : ScrapeState) (u : List Char)
    (h : GoodState st) : GoodState (scrapeUrlStep env st u) := by
  obtain ⟨h1, h2, h3⟩ := h
  unfold scrapeUrlStep
  by_cases hc : st.seen_urls_global.contains u = true
  · rw [if_pos hc]; exact ⟨h1, h2, h3⟩
  · rw [if_neg hc]
    have hu : u ∉ st.seen_urls_global := not_mem_of_contains_eq_false (by simpa using hc)
    cases hf : env.fetch u with
    | some content =>
      refine ⟨?_, ?_, ?_⟩
      · simp [List.nodup_append, h1, hu]
      · simp [h2]
      · simp [List.filter_append, h3]
    | none =>
      refine ⟨h1, h2, ?_⟩
      simp [List.filter_append, h3]

theorem foldl_scrapeUrlStep_good (env : ScrapeEnv) (urls : List (List Char)) :
    ∀ st, GoodState st → GoodState (urls.foldl (scrapeUrlStep env) st) := by
  induction urls with
  | nil => intro st h; exact h
  | cons u rest ih => intro st h; exact ih _ (scrapeUrlStep_good env st u h)

/-- The reddit branch's invariant over its buffered `(records, seen, trace)`
triple: relative to the records already in the output (`base`). -/
def RBInv (base : List (List Char))
    (t : List ContentRecord × List (List Char) × List (List Char × Bool)) : Prop :=
  t.2.1.Nodup ∧ base ++ t.1.map (fun r => r.url) = t.2.1
  ∧ (t.2.2.filter (fun e => e.2)).map (fun e => e.1) = t.2.1

theorem processRedditPost_inv (env : ScrapeEnv) (base : List (List Char))
    (acc : List ContentRecord × List (List Char) × List (List Char × Bool))
    (post_url : List Char) (h : RBInv base acc) :
    RBInv base (processRedditPost env acc post_url) := by
  obtain ⟨h1, h2, h3⟩ := h
  unfold processRedditPost
  by_cases hc : acc.2.1.contains post_url = true
  · rw [if_pos hc]; exact ⟨h1, h2, h3⟩
  · rw [if_neg hc]
    have hu : post_url ∉ acc.2.1 := not_mem_of_contains_eq_false (by simpa using hc)
    cases hf : env.postContent post_url with
    | none => exact ⟨h1, h2, by simp [List.filter_append, h3]⟩
    | some content =>
      dsimp only
      by_cases hlen : 100 < content.length
      · rw [if_pos hlen]
        refine ⟨?_, ?_, ?_⟩
        · simp [List.nodup_append, h1, hu]
        · simp [← List.append_assoc, h2]
        · simp [List.filter_append, h3]
      · rw [if_neg hlen]
        exact ⟨h1, h2, by simp [List.filter_append, h3]⟩

theorem foldl_redditPost_inv (env : ScrapeEnv) (posts : List (List Char))
    (base : List (List Char)) :
    ∀ acc, RBInv base acc → RBInv base (posts.foldl (processRedditPost env) acc) := by
  induction posts with
  | nil => intro acc h; exact h
  | cons p rest ih => intro acc h; exact ih _ (processRedditPost_inv env base acc p h)

theorem processReddit_good (env : ScrapeEnv) (args : ScrapeArgs) (item : List Char)
    (st : ScrapeState) (h : GoodState st) : GoodState (processReddit env args item st) := by
  obtain ⟨h1, h2, h3⟩ := h
  simp only [processReddit]
  by_cases hnr : args.no_reddit = true
  · rw [if_pos hnr]; exact ⟨h1, h2, h3⟩
  · rw [if_neg hnr]
    by_cases hns : args.no_search = true
    · rw [if_pos hns]; exact ⟨h1, h2, h3⟩
    · rw [if_neg hns]
      by_cases hsub : (subredditName item).isEmpty = true
      · rw [if_pos hsub]; exact ⟨h1, h2, h3⟩
      · rw [if_neg hsub]
        by_cases hdrv : (!(env.driverOk item)) = true
        · rw [if_pos hdrv]; exact ⟨h1, h2, h3⟩
        · rw [if_neg hdrv]
          have hinv : RBInv (st.scraped_data.map (fun r => r.url))
              ([], st.seen_urls_global, st.trace) := ⟨h1, by simpa using h2, h3⟩
          have hfold := foldl_redditPost_inv env
            ((collectRedditLinks env (subredditName item) args.search_queries).take
              args.max_reddit_results)
            (st.scraped_data.map (fun r => r.url)) _ hinv
          refine ⟨hfold.1, ?_, hfold.2.2⟩
          rw [List.map_append]
          exact hfold.2.1

theorem processWebsite_good (env : ScrapeEnv) (args : ScrapeArgs) (item : List Char)
    (st : ScrapeState) (h : GoodState st) : GoodState (processWebsite env args item st) := by
  simp only [processWebsite]
  by_cases hns : args.no_search = true
  · rw [if_pos hns]; exact h
  · rw [if_neg hns]
    exact foldl_scrapeUrlStep_good env _ st h

theorem scrapeItemStep_good (env : ScrapeEnv) (args : ScrapeArgs)
    (direct_article_urls : List (List Char)) (st : ScrapeState) (item : List Char)
    (h : GoodState st) :
    GoodState (scrapeItemStep env args direct_article_urls st item) := by
  unfold scrapeItemStep
  by_cases h1 : is_direct_url direct_article_urls item = true
  · rw [if_pos h1]; exact scrapeUrlStep_good env st item h
  · rw [if_neg h1]
    by_cases h2 : is_reddit_source item = true
    · rw [if_pos h2]; exact processReddit_good env args item st h
    · rw [if_neg h2]
      by_cases h3 : is_website_source direct_article_urls item = true
      · rw [if_pos h3]; exact processWebsite_good env args item st h
      · rw [if_neg h3]; exact h

theorem foldl_scrapeItemStep_good (env : ScrapeEnv) (args : ScrapeArgs)
    (direct_article_urls : List (List Char)) (sources : List (List Char)) :
    ∀ st, GoodState st →
      GoodState (sources.foldl (scrapeItemStep env args direct_article_urls) st) := by
  induction sources with
  | nil => intro st h; exact h
  | cons item rest ih =>
    intro st h
    exact ih _ (scrapeItemStep_good env args direct_article_urls st item h)

/-- C1 (amended): across all three strategies, the global dedup set never
contains the same URL twice; the output records' URLs are exactly the dedup
set, so a URL reachable from two different source items yields at most one
ContentRecord — exactly one once a fetch of it succeeds — and no URL's fetch
succeeds twice; only a fetch that produced no record can be re-issued for the
same URL. -/
theorem C1_global_dedup_invariants (env : ScrapeEnv) (args : ScrapeArgs)
    (sources_or_urls direct_article_urls : List (List Char)) :
    (scrape_content env args sources_or_urls direct_article_urls).seen_urls_global.Nodup
    ∧ (scrape_content env args sources_or_urls direct_article_urls).scraped_data.map
        (fun r => r.url)
      = (scrape_content env args sources_or_urls direct_article_urls).seen_urls_global
    ∧ ((scrape_content env args sources_or_urls direct_article_urls).trace.filter
        (fun e => e.2)).map (fun e => e.1)
      = (scrape_content env args sources_or_urls direct_article_urls).seen_urls_global
    ∧ ((scrape_content env args sources_or_urls direct_article_urls).scraped_data.map
        (fun r => r.url)).Nodup := by
  have h := foldl_scrapeItemStep_good env args direct_article_urls sources_or_urls
    ⟨[], [], []⟩ ⟨by simp, rfl, rfl⟩
  obtain ⟨h1, h2, h3⟩ := h
  exact ⟨h1, h2, h3, h2 ▸ h1⟩

/-- C1 counterexample: a direct URL whose article extraction fails
(`scrape_website_url` returns `None`) never enters the dedup set, so a second
source item naming the same URL fetches it again — the claim that no URL is
ever fetched twice within one run is false on the code. -/
theorem C1_fetched_twice_counterexample :
    (scrape_content
        ⟨fun _ => none, fun _ => false, fun _ _ => [], fun _ => none,
          fun _ => .failed, fun _ => .failed⟩
        ⟨false, false, [], 0, 0, true⟩
        ["u".toList, "u".toList] ["u".toList]).trace
      = [("u".toList, false), ("u".toList, false)]
    ∧ ¬ ((scrape_content
        ⟨fun _ => none, fun _ => false, fun _ _ => [], fun _ => none,
          fun _ => .failed, fun _ => .failed⟩
        ⟨false, false, [], 0, 0, true⟩
        ["u".toList, "u".toList] ["u".toList]).trace.map (fun e => e.1)).Nodup :=
  ⟨by decide, by decide⟩

/-! ### The round-trip law of the tag parser (C6) -/

/-- Modelled from the spec: `wrap` embeds a text between `<tag>` and `</tag>`
(the spec's round-trip law is stated against this embedding; the tag lists
match the ones `parse_ai_tool_response` builds). -/
def wrapTag (tag content : List Char) : List Char :=
  ('<' :: tag ++ ['>']) ++ content ++ ('<' :: '/' :: tag ++ ['>'])

theorem containsSub_eq_false_of_not_occurs {pat s : List Char} (h : ¬ Occurs pat s) :
    containsSub pat s = false := by
  cases hcs : containsSub pat s
  · rfl
  · exact absurd ((occurs_iff_containsSub pat s).mpr hcs) h

theorem wrap_foo_eq (X : List Char) :
    wrapTag "foo".toList X = "<foo>".toList ++ X ++ "</foo>".toList := rfl

theorem lowerStr_wrap (X : List Char) :
    lowerStr (wrapTag "foo".toList X)
      = "<foo>".toList ++ lowerStr X ++ "</foo>".toList := by
  rw [wrap_foo_eq]
  simp only [lowerStr, List.map_append]
  rw [show List.map Char.toLower "<foo>".toList = "<foo>".toList by decide,
    show List.map Char.toLower "</foo>".toList = "</foo>".toList by decide]

theorem stripStr_cons_append_singleton (c d : Char) (m : List Char)
    (hc : c.isWhitespace = false) (hd : d.isWhitespace = false) :
    stripStr (c :: (m ++ [d])) = c :: (m ++ [d])  := by
  have h1 : (c :: (m ++ [d])).dropWhile Char.isWhitespace = c :: (m ++ [d]) := by
    rw [List.dropWhile_cons, hc]
    simp
  have h2 : (c :: (m ++ [d])).reverse = d :: (m.reverse ++ [c]) := by
    simp
  unfold stripStr
  rw [h1, h2, List.dropWhile_cons, hd]
  simp only [Bool.false_eq_true, if_false]
  rw [← h2, List.reverse_reverse]

/-- No `<think>` occurrence anywhere in the lowered wrapped text, provided
there is none in the lowered payload. -/
theorem no_think_in_wrap {X : List Char}
    (hthink : containsSub "<think>".toList (lowerStr X) = false) :
    ¬ Occurs "<think>".toList ("<foo>".toList ++ (lowerStr X ++ "</foo>".toList)) := by
  intro h
  rcases occurs_append_cases h with h1 | h1 | h1
  · rw [occurs_iff_containsSub] at h1
    revert h1; decide
  · rcases occurs_append_cases h1 with h2 | h2 | h2
    · rw [occurs_iff_containsSub, hthink] at h2
      exact absurd h2 (by simp)
    · rw [occurs_iff_containsSub] at h2
      revert h2; decide
    · obtain ⟨k, hk1, hk2, -, hk4⟩ := h2
      have h7 : ("<think>".toList).length = 7 := by decide
      rw [h7] at hk2
      interval_cases k <;> exact absurd hk4 (by decide)
  · obtain ⟨k, hk1, hk2, hk3, -⟩ := h1
    have h7 : ("<think>".toList).length = 7 := by decide
    rw [h7] at hk2
    interval_cases k <;> exact absurd hk3 (by decide)

/-- The last (indeed only) occurrence of `<foo>` in the lowered wrapped text is
at index 0, provided the payload contains none. -/
theorem rfind_open_wrap {X : List Char}
    (hopen : containsSub "<foo>".toList (lowerStr X) = false) :
    rfindSub "<foo>".toList ("<foo>".toList ++ (lowerStr X ++ "</foo>".toList)) = some 0 := by
  apply rfindSub_intro_zero (by decide)
  · exact ⟨lowerStr X ++ "</foo>".toList, rfl⟩
  · intro i hi hpre
    obtain ⟨j, rfl⟩ : ∃ j, i = j + 1 := ⟨i - 1, by omega⟩
    rw [show ("<foo>".toList ++ (lowerStr X ++ "</foo>".toList) : List Char)
        = '<' :: ("foo>".toList ++ (lowerStr X ++ "</foo>".toList)) from rfl,
      List.drop_succ_cons] at hpre
    have hocc : Occurs "<foo>".toList ("foo>".toList ++ (lowerStr X ++ "</foo>".toList)) :=
      ⟨j, hpre⟩
    rcases occurs_append_cases hocc with h1 | h1 | h1
    · rw [occurs_iff_containsSub] at h1
      revert h1; decide
    · rcases occurs_append_cases h1 with h2 | h2 | h2
      · rw [occurs_iff_containsSub, hopen] at h2
        exact absurd h2 (by simp)
      · rw [occurs_iff_containsSub] at h2
        revert h2; decide
      · obtain ⟨k, hk1, hk2, -, hk4⟩ := h2
        have h5 : ("<foo>".toList).length = 5 := by decide
        rw [h5] at hk2
        interval_cases k <;> exact absurd hk4 (by decide)
    · obtain ⟨k, hk1, hk2, hk3, -⟩ := h1
      have h5 : ("<foo>".toList).length = 5 := by decide
      rw [h5] at hk2
      interval_cases k <;> exact absurd hk3 (by decide)

/-- The first `</foo>` at or after the payload start sits exactly at the end of
the payload, provided the payload contains no `</foo>`. -/
theorem find_close_wrap {X : List Char}
    (hclose : containsSub "</foo>".toList (lowerStr X) = false) :
    findSub "</foo>".toList (lowerStr X ++ "</foo>".toList) = some (lowerStr X).length := by
  apply findSub_intro
  · rw [List.drop_left]
  · intro j hj hpre
    rw [List.drop_append_of_le_length (by omega)] at hpre
    rcases prefix_append_cases hpre with ⟨hlen, hpa⟩ | ⟨hap, hdrop⟩
    · have : Occurs "</foo>".toList (lowerStr X) := ⟨j, hpa⟩
      rw [occurs_iff_containsSub, hclose] at this
      exact absurd this (by simp)
    · have h6 : ("</foo>".toList).length = 6 := by decide
      have hk1 : 0 < ((lowerStr X).drop j).length := by
        rw [List.length_drop]
        omega
      have hkle : ((lowerStr X).drop j).length ≤ 6 := by
        have := hap.length_le
        omega
      rcases eq_or_lt_of_le hkle with heq | hlt
      · have heqd : (lowerStr X).drop j = "</foo>".toList :=
          hap.eq_of_length_le (by omega)
        have : Occurs "</foo>".toList (lowerStr X) := ⟨j, heqd ▸ List.prefix_refl _⟩
        rw [occurs_iff_containsSub, hclose] at this
        exact absurd this (by simp)
      · have hcases : ((lowerStr X).drop j).length = 1 ∨ ((lowerStr X).drop j).length = 2
            ∨ ((lowerStr X).drop j).length = 3 ∨ ((lowerStr X).drop j).length = 4
            ∨ ((lowerStr X).drop j).length = 5 := by omega
        rcases hcases with hk | hk | hk | hk | hk <;> rw [hk] at hdrop <;>
          exact absurd hdrop (by decide)

/-- C6 (amended): the round-trip law
`extractTag (wrap X "foo") "foo" = X` holds for every payload X that contains
none of the tag's own delimiters (case-insensitively), no `<think>` span, and
no leading or trailing whitespace — the parser's final `.strip()` and its
think-span removal force the last two conditions. -/
theorem C6_roundtrip_amended (X : List Char)
    (hstrip : stripStr X = X)
    (hopen : containsSub "<foo>".toList (lowerStr X) = false)
    (hclose : containsSub "</foo>".toList (lowerStr X) = false)
    (hthink : containsSub "<think>".toList (lowerStr X) = false) :
    parse_ai_tool_response (wrapTag "foo".toList X) "foo".toList = X := by
  have hlow : lowerStr (wrapTag "foo".toList X)
      = "<foo>".toList ++ (lowerStr X ++ "</foo>".toList) := by
    rw [lowerStr_wrap, List.append_assoc]
  have hthinkW : containsSub thinkOpenL (lowerStr (wrapTag "foo".toList X)) = false := by
    rw [hlow]
    exact containsSub_eq_false_of_not_occurs (no_think_in_wrap hthink)
  have hshape : wrapTag "foo".toList X
      = '<' :: (("foo>".toList ++ X ++ "</foo".toList) ++ ['>']) := by
    rw [wrap_foo_eq,
      show ("<foo>".toList : List Char) = '<' :: "foo>".toList from rfl,
      show ("</foo>".toList : List Char) = "</foo".toList ++ ['>'] from rfl]
    simp [List.append_assoc]
  have hstripW : stripStr (wrapTag "foo".toList X) = wrapTag "foo".toList X := by
    rw [hshape]
    exact stripStr_cons_append_singleton '<' '>' _ (by decide) (by decide)
  have hcleanW : clean_thinking_tags (wrapTag "foo".toList X) = wrapTag "foo".toList X :=
    clean_eq_self hthinkW hstripW
  have hne : (wrapTag "foo".toList X).isEmpty = false := by
    rw [hshape]
    rfl
  simp only [parse_ai_tool_response, hcleanW, hne, Bool.false_eq_true, if_false]
  rw [show lowerStr ('<' :: "foo".toList ++ ['>']) = "<foo>".toList from by decide,
    show lowerStr ('<' :: '/' :: "foo".toList ++ ['>']) = "</foo>".toList from by decide,
    hlow, rfind_open_wrap hopen]
  dsimp only
  rw [show (0 + ('<' :: "foo".toList ++ ['>'] : List Char).length) = 5 from by decide,
    findSubFrom,
    show ("<foo>".toList ++ (lowerStr X ++ "</foo>".toList) : List Char).drop 5
      = lowerStr X ++ "</foo>".toList from by
      rw [show (5 : Nat) = ("<foo>".toList : List Char).length from rfl, List.drop_left],
    find_close_wrap hclose]
  dsimp only [Option.map]
  rw [show (wrapTag "foo".toList X).drop 5 = X ++ "</foo>".toList from by
      rw [wrap_foo_eq, List.append_assoc,
        show (5 : Nat) = ("<foo>".toList : List Char).length from rfl, List.drop_left],
    Nat.add_sub_cancel,
    show ((lowerStr X).length : Nat) = X.length from by simp [lowerStr],
    List.take_left, hstrip]

/-- C6 counterexample: `X = " <think>b</think>a "` contains neither `<foo>` nor
`</foo>`, yet extracting tag `foo` from `<foo> <think>b</think>a </foo>`
returns `"a"`, not X — the parser strips think-spans and trims whitespace, so
the round-trip law as stated fails. -/
theorem C6_roundtrip_counterexample :
    parse_ai_tool_response (wrapTag "foo".toList " <think>b</think>a ".toList) "foo".toList
      = "a".toList
    ∧ parse_ai_tool_response (wrapTag "foo".toList " <think>b</think>a ".toList) "foo".toList
      ≠ " <think>b</think>a ".toList := by
  constructor
  · decide
  · decide

/-- Witness for the amended C6 at a concrete payload. -/
theorem C6_roundtrip_amended_witness :
    parse_ai_tool_response (wrapTag "foo".toList "Some Payload 123".toList) "foo".toList
      = "Some Payload 123".toList :=
  C6_roundtrip_amended _ (by decide) (by decide) (by decide) (by decide)

end Ecne
